import Mathlib

/-!
# Verification of the splittr tax allocator and form logic

Shallow embedding of the splittr repository (a client-side bill-splitting
form).  Numbers entered in the form are modelled as exact rationals.
JavaScript arithmetic on them is exact except for division by zero, which
yields a non-finite value (NaN or ±Infinity); non-finiteness is modelled
by `Option ℚ` with `none` standing for any non-finite result.  Every
arithmetic step the allocator performs after a division by zero keeps the
value non-finite, so `none` is propagated by `Option.map`.
-/

namespace Splittr

/-- An item of the bill: `\x7b name: string, price: number \x7d`
(src/src/components/item/schema.ts). -/
structure Item where
  name : String
  price : ℚ
  deriving DecidableEq, Repr

/-- One output line of the submit handler's itemization
(src/src/App.tsx, `itemizedItems` state).  `tax` and `total` come out of a
division and may be non-finite, hence `Option ℚ`. -/
structure ItemizedLine where
  name : String
  price : ℚ
  tax : Option ℚ
  total : Option ℚ
  deriving DecidableEq, Repr

/-- JavaScript division restricted to finite operands: `x / y` is finite
with exact value `x / y` when `y ≠ 0`, and NaN or ±Infinity when `y = 0`. -/
def jsDiv (x y : ℚ) : Option ℚ :=
  if y = 0 then none else some (x / y)

/-- The submit handler's itemization (src/src/App.tsx, `onSubmit`):

`const taxProportion = (price / (totalPrice - tax)) * tax;`
`return \x7b name, price, tax: taxProportion, total: price + taxProportion \x7d;`

Multiplying a non-finite `taxProportion` by `tax` or adding `price` to it
keeps it non-finite, so both operations are `Option.map`. -/
def itemized (items : List Item) (tax totalPrice : ℚ) : List ItemizedLine :=
  items.map fun it =>
    let taxProportion := (jsDiv it.price (totalPrice - tax)).map (· * tax)
    { name := it.name
      price := it.price
      tax := taxProportion
      total := taxProportion.map (it.price + ·) }

/-- The running total of item prices, as computed by
`watchItems.reduce((acc, \x7b price \x7d) => acc + price, 0)`
(src/src/App.tsx line 460 and src/unnamed/part_002 lines 88, 94). -/
def subtotal (items : List Item) : ℚ :=
  items.foldl (fun acc it => acc + it.price) 0

theorem subtotal_eq_sum (items : List Item) :
    subtotal items = (items.map Item.price).sum := by
  suffices h : ∀ a : ℚ, items.foldl (fun acc it => acc + it.price) a
      = a + (items.map Item.price).sum by
    simpa [subtotal] using h 0
  induction items with
  | nil => intro a; simp
  | cons it rest ih =>
      intro a
      simp [List.foldl_cons, ih, add_assoc]

theorem subtotal_cons (it : Item) (rest : List Item) :
    subtotal (it :: rest) = it.price + subtotal rest := by
  simp [subtotal_eq_sum]

/-- **C1.**  For every item list, tax and total price with a nonzero
denominator `totalPrice - tax`, the submit handler's itemization assigns
the item at index `i` with price `p` the tax share
`(p / (totalPrice - tax)) * tax` and the line total `p + tax share`:
the backed-out pre-tax subtotal `totalPrice - tax` (convention (a)) is the
denominator of the proportional share. -/
theorem itemized_line_formula (items : List Item) (tax totalPrice : ℚ)
    (hs : totalPrice - tax ≠ 0) (i : Nat) (hi : i < items.length) :
    (itemized items tax totalPrice).get? i =
      some { name := (items.get ⟨i, hi⟩).name
             price := (items.get ⟨i, hi⟩).price
             tax := some ((items.get ⟨i, hi⟩).price / (totalPrice - tax) * tax)
             total := some ((items.get ⟨i, hi⟩).price
               + (items.get ⟨i, hi⟩).price / (totalPrice - tax) * tax) } := by
  unfold itemized
  rw [List.get?_map, List.get?_eq_get hi]
  simp [jsDiv, hs]

/-- Witness for C1 at `items = [A:50, B:50]`, `tax = 10`,
`totalPrice = 110`: line 0 is A with tax share 5 and total 55. -/
theorem itemized_line_formula_witness :
    ((110 : ℚ) - 10 ≠ 0) ∧ (0 < ([⟨"A", 50⟩, ⟨"B", 50⟩] : List Item).length) ∧
      (itemized [⟨"A", 50⟩, ⟨"B", 50⟩] 10 110).get? 0 =
        some { name := ("A" : String), price := (50 : ℚ)
               tax := some ((50 : ℚ) / (110 - 10) * 10)
               total := some ((50 : ℚ) + 50 / (110 - 10) * 10) } :=
  ⟨by norm_num, by decide,
    itemized_line_formula [⟨"A", 50⟩, ⟨"B", 50⟩] 10 110 (by norm_num) 0 (by decide)⟩

/-- **C2.**  At the zero-subtotal input `items = [A:0]`, `tax = 5`,
`totalPrice = 5` the submit handler does NOT fail: it returns an output
line whose tax share and total are non-finite (NaN in JavaScript,
`none` in this model).  There is no `InvalidAllocation` path anywhere in
`onSubmit`; its result type has no error case at all. -/
theorem itemized_zero_subtotal_nan :
    itemized [⟨"A", 0⟩] 5 5 =
      [{ name := "A", price := 0, tax := none, total := none }] := by
  simp [itemized, jsDiv]

/-- The sum of the allocated tax shares over the output lines (the
quantity §8 of the spec asks to reconcile with `tax`); adding a
non-finite share keeps the sum non-finite, as in JavaScript. -/
def sharesSum : List ItemizedLine → Option ℚ
  | [] => some 0
  | l :: rest =>
    match l.tax, sharesSum rest with
    | some t, some s => some (t + s)
    | _, _ => none

theorem sharesSum_itemized (items : List Item) (tax totalPrice : ℚ)
    (hs : totalPrice - tax ≠ 0) :
    sharesSum (itemized items tax totalPrice) =
      some ((items.map Item.price).sum / (totalPrice - tax) * tax) := by
  induction items with
  | nil => simp [sharesSum, itemized]
  | cons it rest ih =>
      show sharesSum
        ({ name := it.name, price := it.price
           tax := (jsDiv it.price (totalPrice - tax)).map (· * tax)
           total := ((jsDiv it.price (totalPrice - tax)).map (· * tax)).map
             (it.price + ·) } :: itemized rest tax totalPrice) = _
      rw [sharesSum, ih]
      simp only [jsDiv, if_neg hs, Option.map_some]
      refine congrArg some ?_
      rw [List.map_cons, List.sum_cons]
      ring

/-- **C3 counterexample.**  The claim quantifies over every item list,
tax and total price with positive subtotal, but the code divides by
`totalPrice - tax`, which need not equal the item-price sum: at
`items = [A:1]`, `tax = 1`, `totalPrice = 3` the subtotal is `1 > 0`,
yet the allocated shares sum to `1/2`, not to the tax `1`. -/
theorem sharesSum_ne_tax_counterexample :
    0 < subtotal [⟨"A", 1⟩] ∧
      sharesSum (itemized [⟨"A", 1⟩] 1 3) ≠ some 1 := by
  constructor
  · norm_num [subtotal]
  · norm_num [itemized, jsDiv, sharesSum]

/-- **C3 (amended).**  For every item list, tax and total price such
that `totalPrice - tax` equals the item-price subtotal (the relation the
form's auto-recompute maintains) and the subtotal is positive, the
allocated tax shares sum to exactly `tax` under exact rational
arithmetic; no rounding-correction redistribution is involved. -/
theorem sharesSum_reconciles (items : List Item) (tax totalPrice : ℚ)
    (hrel : totalPrice - tax = subtotal items) (hpos : 0 < subtotal items) :
    sharesSum (itemized items tax totalPrice) = some tax := by
  have hs : totalPrice - tax ≠ 0 := by rw [hrel]; exact ne_of_gt hpos
  rw [sharesSum_itemized items tax totalPrice hs, hrel, ← subtotal_eq_sum,
    div_self (ne_of_gt hpos), one_mul]

/-- Witness for the amended C3 at `items = [A:75, B:25]`, `tax = 20`,
`totalPrice = 120`: the shares sum to exactly 20. -/
theorem sharesSum_reconciles_witness :
    ((120 : ℚ) - 20 = subtotal [⟨"A", 75⟩, ⟨"B", 25⟩]) ∧
      (0 < subtotal [⟨"A", 75⟩, ⟨"B", 25⟩]) ∧
      sharesSum (itemized [⟨"A", 75⟩, ⟨"B", 25⟩] 20 120) = some 20 :=
  ⟨by norm_num [subtotal], by norm_num [subtotal],
    sharesSum_reconciles [⟨"A", 75⟩, ⟨"B", 25⟩] 20 120
      (by norm_num [subtotal]) (by norm_num [subtotal])⟩

/-- **C4.**  Every line of every itemization satisfies
`total = price + tax` exactly: the line's total is its price plus its
allocated tax share (both being non-finite together when the share is). -/
theorem line_total_eq_price_add_tax (items : List Item) (tax totalPrice : ℚ)
    (l : ItemizedLine) (hl : l ∈ itemized items tax totalPrice) :
    l.total = l.tax.map (fun t => l.price + t) := by
  rcases List.mem_map.mp hl with ⟨it, _, rfl⟩
  rfl

/-- Witness for C4 on the first line of
`itemized [A:50] 10 110`, which is `⟨A, 50, some 5, some 55⟩`. -/
theorem line_total_eq_price_add_tax_witness :
    ((⟨"A", 50, some 5, some 55⟩ : ItemizedLine) ∈ itemized [⟨"A", 50⟩] 10 110) ∧
      some (55 : ℚ) = Option.map (fun t => (50 : ℚ) + t) (some 5) :=
  ⟨by norm_num [itemized, jsDiv],
    line_total_eq_price_add_tax [⟨"A", 50⟩] 10 110 ⟨"A", 50, some 5, some 55⟩
      (by norm_num [itemized, jsDiv])⟩

/-- **C5.**  For every input, the itemization has exactly one line per
input item, and the line at each index carries the name and price of the
input item at the same index: the output is stable and
index-preserving. -/
theorem itemized_length_and_order (items : List Item) (tax totalPrice : ℚ) :
    (itemized items tax totalPrice).length = items.length ∧
    (itemized items tax totalPrice).map ItemizedLine.name = items.map Item.name ∧
    (itemized items tax totalPrice).map ItemizedLine.price = items.map Item.price := by
  refine ⟨?_, ?_, ?_⟩ <;> simp [itemized, List.map_map, Function.comp]

/-! ## The richer form variant (src/unnamed/part_002, `ItemsForm`) -/

/-- State of the richer `ItemsForm` variant: the three form values plus
the `isManualTotal` flag (`useState(false)`). -/
structure ItemsFormState where
  items : List Item
  tax : ℚ
  totalPrice : ℚ
  isManualTotal : Bool

/-- `form.setValue("items." ++ i ++ ".price", v)`: update the price of
the item at index `i`, leaving names, order and length unchanged. -/
def setPrice : List Item → Nat → ℚ → List Item
  | [], _, _ => []
  | it :: rest, 0, v => { it with price := v } :: rest
  | it :: rest, Nat.succ n, v => it :: setPrice rest n v

/-- The auto-recompute effect (part_002 lines 92-101): when not in
manual-total mode, set `totalPrice` to `subtotal + tax`.  (The source's
`newTotal !== watchTotalPrice` test only skips a redundant write.) -/
def applyEffect (s : ItemsFormState) : ItemsFormState :=
  if s.isManualTotal then s
  else { s with totalPrice := subtotal s.items + s.tax }

/-- `handleItemPriceChange` (part_002 lines 67-75): clear the manual
flag and set the edited price, after which the effect runs. -/
def handleItemPriceChange (s : ItemsFormState) (index : Nat) (value : ℚ) :
    ItemsFormState :=
  applyEffect { s with isManualTotal := false, items := setPrice s.items index value }

/-- `handleTaxChange` (part_002 lines 77-81): clear the manual flag and
set the tax, after which the effect runs. -/
def handleTaxChange (s : ItemsFormState) (value : ℚ) : ItemsFormState :=
  applyEffect { s with isManualTotal := false, tax := value }

/-- `handleTotalPriceChange` (part_002 lines 83-90): set the manual
flag, the new total, and `tax := newTotal - subtotal`; the effect then
runs but is the identity because the mode was just set to manual. -/
def handleTotalPriceChange (s : ItemsFormState) (value : ℚ) : ItemsFormState :=
  applyEffect { s with isManualTotal := true, totalPrice := value
                       tax := value - subtotal s.items }

/-- The edit events of the derived-field synchronization. -/
inductive FormEvent where
  | priceEdit (index : Nat) (value : ℚ)
  | taxEdit (value : ℚ)
  | totalPriceEdit (value : ℚ)

/-- One edit event processed by the form: the matching change handler
followed by the auto-recompute effect. -/
def stepForm (s : ItemsFormState) : FormEvent → ItemsFormState
  | FormEvent.priceEdit i v => handleItemPriceChange s i v
  | FormEvent.taxEdit v => handleTaxChange s v
  | FormEvent.totalPriceEdit v => handleTotalPriceChange s v

/-- **C6.**  From any state: an item-price edit or a tax edit puts the
form in Auto mode (`isManualTotal = false`) and recomputes the total as
`subtotal + tax`; a direct total-price edit puts the form in Manual
mode, keeps the entered total, and recomputes `tax = total - subtotal`;
Manual mode persists across further total-price edits; and the next
item-price edit leaves Manual mode and resumes auto-recomputation. -/
theorem form_mode_machine (s : ItemsFormState) (i : Nat) (v w : ℚ) :
    ((stepForm s (FormEvent.priceEdit i v)).isManualTotal = false
      ∧ (stepForm s (FormEvent.priceEdit i v)).totalPrice
          = subtotal (stepForm s (FormEvent.priceEdit i v)).items
            + (stepForm s (FormEvent.priceEdit i v)).tax)
    ∧ ((stepForm s (FormEvent.taxEdit v)).isManualTotal = false
      ∧ (stepForm s (FormEvent.taxEdit v)).tax = v
      ∧ (stepForm s (FormEvent.taxEdit v)).totalPrice
          = subtotal (stepForm s (FormEvent.taxEdit v)).items + v)
    ∧ ((stepForm s (FormEvent.totalPriceEdit v)).isManualTotal = true
      ∧ (stepForm s (FormEvent.totalPriceEdit v)).totalPrice = v
      ∧ (stepForm s (FormEvent.totalPriceEdit v)).tax = v - subtotal s.items)
    ∧ (stepForm (stepForm s (FormEvent.totalPriceEdit v))
        (FormEvent.totalPriceEdit w)).isManualTotal = true
    ∧ (stepForm (stepForm s (FormEvent.totalPriceEdit v))
        (FormEvent.priceEdit i w)).isManualTotal = false
    ∧ (stepForm (stepForm s (FormEvent.totalPriceEdit v))
        (FormEvent.priceEdit i w)).totalPrice
        = subtotal (stepForm (stepForm s (FormEvent.totalPriceEdit v))
            (FormEvent.priceEdit i w)).items
          + (stepForm (stepForm s (FormEvent.totalPriceEdit v))
              (FormEvent.priceEdit i w)).tax := by
  simp [stepForm, handleItemPriceChange, handleTaxChange,
    handleTotalPriceChange, applyEffect]

/-! ## Add/Remove of items (src/src/App.tsx, `useFieldArray`) -/

/-- `canRemove = fields.length > 1` (App.tsx line 530, part_002 line
149): the Remove button is rendered only when more than one item
remains. -/
def canRemove (items : List Item) : Bool := items.length > 1

/-- A click on a Remove button: available (and removing index `i`) only
when `canRemove`; with a single item the button is not rendered and the
list is unchanged. -/
def removeItem (items : List Item) (i : Nat) : List Item :=
  if canRemove items then items.eraseIdx i else items

/-- A click on Add Item: `append(\x7b name, price: 0 \x7d)`. -/
def appendItem (items : List Item) (it : Item) : List Item := items ++ [it]

/-- A user action on the item list. -/
inductive ItemsEvent where
  | add (it : Item)
  | removeAt (i : Nat)

def applyItemsEvent (items : List Item) : ItemsEvent → List Item
  | ItemsEvent.add it => appendItem items it
  | ItemsEvent.removeAt i => removeItem items i

def applyItemsEvents (items : List Item) (es : List ItemsEvent) : List Item :=
  es.foldl applyItemsEvent items

theorem applyItemsEvent_ne_nil (items : List Item) (e : ItemsEvent)
    (h : items ≠ []) : applyItemsEvent items e ≠ [] := by
  cases e with
  | add it => simp [applyItemsEvent, appendItem]
  | removeAt i =>
      simp only [applyItemsEvent, removeItem, canRemove]
      split
      · next hgt =>
          have hlen : 1 < items.length := by simpa using hgt
          have hpos : 0 < (items.eraseIdx i).length := by
            rw [List.length_eraseIdx]
            split <;> omega
          exact List.ne_nil_of_length_pos hpos
      · exact h

/-- **C7.**  Removal is rejected when exactly one item remains (the
Remove action leaves a singleton unchanged), and consequently from any
non-empty item list no sequence of add/remove events can empty it. -/
theorem items_never_empty (items : List Item) (es : List ItemsEvent)
    (it : Item) (i : Nat) (h : items ≠ []) :
    removeItem [it] i = [it] ∧ applyItemsEvents items es ≠ [] := by
  constructor
  · simp [removeItem, canRemove]
  · unfold applyItemsEvents
    induction es generalizing items with
    | nil => exact h
    | cons e rest ih =>
        rw [List.foldl_cons]
        exact ih _ (applyItemsEvent_ne_nil items e h)

/-- Witness for C7: a singleton survives a Remove click, and the event
sequence Remove-then-Remove on a singleton leaves it non-empty. -/
theorem items_never_empty_witness :
    ([⟨"Item 1", 0⟩] : List Item) ≠ [] ∧
      (removeItem [⟨"A", 1⟩] 0 = [⟨"A", 1⟩] ∧
        applyItemsEvents [⟨"Item 1", 0⟩]
          [ItemsEvent.removeAt 0, ItemsEvent.removeAt 0] ≠ []) :=
  ⟨by simp,
    items_never_empty [⟨"Item 1", 0⟩]
      [ItemsEvent.removeAt 0, ItemsEvent.removeAt 0] ⟨"A", 1⟩ 0 (by simp)⟩

/-! ## Clipboard summary (src/src/App.tsx, Copy-All button) -/

/-- JavaScript `Array.prototype.join(sep)`: empty string on an empty
array, otherwise the first element followed by `sep ++ element` for each
further element (a left fold). -/
def jsJoin (sep : String) : List String → String
  | [] => ""
  | x :: xs => xs.foldl (fun acc s => acc ++ sep ++ s) x

/-- JavaScript `Number.prototype.toFixed(2)` on an exactly represented
value: the integer nearest `100 * q` (ties toward positive infinity)
rendered with two decimal digits; `"NaN"` on a non-finite value. -/
def toFixed2 : Option ℚ → String
  | none => "NaN"
  | some q =>
    let n : ℤ := ⌊q * 100 + 1 / 2⌋
    let m : ℕ := n.natAbs
    (if n < 0 then "-" else "") ++ toString (m / 100) ++ "." ++
      (if m % 100 < 10 then "0" ++ toString (m % 100) else toString (m % 100))

/-- The clipboard summary built by the Copy-All button (App.tsx lines
666-669): each line mapped to `name ++ ": $" ++ total.toFixed(2)`, then
joined with `"\n"`. -/
def summary (itemizedItems : List ItemizedLine) : String :=
  jsJoin "\n"
    (itemizedItems.map fun item => item.name ++ ": $" ++ toFixed2 item.total)

/-- From the spec's words (§6): the summary line for one itemized line,
"name: $total-to-2-decimals". -/
def specSummaryLine (l : ItemizedLine) : String :=
  l.name ++ ": $" ++ toFixed2 l.total

/-- From the spec's words (§6): a list of lines joined by newline
characters, one separator between consecutive lines. -/
def specNewlineJoined : List String → String
  | [] => ""
  | [x] => x
  | x :: y :: xs => x ++ "\n" ++ specNewlineJoined (y :: xs)

theorem foldl_join_append (sep a b : String) (xs : List String) :
    xs.foldl (fun acc s => acc ++ sep ++ s) (a ++ b)
      = a ++ xs.foldl (fun acc s => acc ++ sep ++ s) b := by
  induction xs generalizing b with
  | nil => rfl
  | cons x xs ih =>
      rw [List.foldl_cons, List.foldl_cons, String.append_assoc,
        String.append_assoc, ← String.append_assoc b sep x, ih]

theorem jsJoin_eq_specNewlineJoined : ∀ xs, jsJoin "\n" xs = specNewlineJoined xs
  | [] => rfl
  | [_] => rfl
  | x :: y :: xs => by
      show (y :: xs).foldl (fun acc s => acc ++ "\n" ++ s) x
        = x ++ "\n" ++ specNewlineJoined (y :: xs)
      rw [List.foldl_cons, ← jsJoin_eq_specNewlineJoined (y :: xs),
        String.append_assoc, foldl_join_append "\n" x ("\n" ++ y) xs,
        foldl_join_append "\n" "\n" y xs, String.append_assoc]
      rfl

/-- **C8.**  For every itemization output the clipboard summary text is
exactly the per-line strings "name: $total-to-2-decimals" — one per
output line, in output order — joined by newline characters (in
particular for every non-empty output). -/
theorem summary_is_spec_lines (items : List Item) (tax totalPrice : ℚ) :
    summary (itemized items tax totalPrice)
      = specNewlineJoined ((itemized items tax totalPrice).map specSummaryLine) := by
  unfold summary
  rw [jsJoin_eq_specNewlineJoined]
  rfl

/-! ## Clipboard failure handling -/

/-- What the user observes after a copy handler runs. -/
inductive CopyOutcome where
  | toasted (title description : String)
  | unhandledRejection (error : String)

/-- `handleCopy` in `CopyButton` (src/src/components/item.tsx lines
165-182), with the settled result of `navigator.clipboard.writeText`
passed explicitly.  On success the toast is shown; the source has no
try/catch around the awaited write, so a rejected write escapes the
async handler as an unhandled rejection and no toast is shown. -/
def handleCopy (text : String) (writeResult : Except String Unit) : CopyOutcome :=
  match writeResult with
  | Except.ok _ => CopyOutcome.toasted "Copied!"
      ("Copied \"" ++ text ++ "\" to your clipboard.")
  | Except.error e => CopyOutcome.unhandledRejection e

/-- The Copy-All click handler (App.tsx lines 666-677): the write is not
awaited and has no rejection handler, and the success toast fires
unconditionally.  Returns the toast title shown, paired with the
unhandled rejection if the write fails. -/
def copyAllClick (writeResult : Except String Unit) : String × Option String :=
  ("Items Copied!",
    match writeResult with
    | Except.ok _ => none
    | Except.error e => some e)

/-- **C9.**  A rejected clipboard write (e.g. denied permission) is NOT
caught by either copy handler: `CopyButton.handleCopy` lets it escape as
an unhandled rejection with no user-visible report, and the Copy-All
handler shows its success toast while leaving the rejection unhandled. -/
theorem clipboard_failure_unhandled :
    handleCopy "5.00" (Except.error "NotAllowedError")
        = CopyOutcome.unhandledRejection "NotAllowedError" ∧
      copyAllClick (Except.error "NotAllowedError")
        = ("Items Copied!", some "NotAllowedError") :=
  ⟨rfl, rfl⟩

/-! ## Refinement: auto-computed total vs the naive allocator -/

/-- From the claim's words: the naive proportional allocator that
divides by the sum of item prices directly,
`tax_i = (p_i / sum(prices)) * tax`. -/
def naiveItemized (items : List Item) (tax : ℚ) : List ItemizedLine :=
  items.map fun it =>
    let share := (jsDiv it.price (subtotal items)).map (· * tax)
    { name := it.name
      price := it.price
      tax := share
      total := share.map (it.price + ·) }

/-- **C10.**  Whenever `totalPrice = subtotal + tax` — the relation the
auto-recompute effect maintains before every submit in the variant with
the disabled total field — the denominator `totalPrice - tax` equals the
item-price subtotal, so the submit handler's itemization coincides with
the naive proportional allocator, and for nonzero subtotal the allocated
shares sum to exactly `tax`. -/
theorem auto_total_refines_naive (items : List Item) (tax totalPrice : ℚ)
    (hrel : totalPrice = subtotal items + tax) :
    itemized items tax totalPrice = naiveItemized items tax ∧
      (subtotal items ≠ 0 →
        sharesSum (itemized items tax totalPrice) = some tax) := by
  have hsub : totalPrice - tax = subtotal items := by rw [hrel]; ring
  constructor
  · unfold itemized naiveItemized
    rw [hsub]
  · intro h0
    rw [sharesSum_itemized items tax totalPrice (by rw [hsub]; exact h0),
      hsub, ← subtotal_eq_sum, div_self h0, one_mul]

/-- Witness for C10 at `items = [A:75, B:25]`, `tax = 20`,
`totalPrice = 120 = 100 + 20`. -/
theorem auto_total_refines_naive_witness :
    ((120 : ℚ) = subtotal [⟨"A", 75⟩, ⟨"B", 25⟩] + 20) ∧
      (itemized [⟨"A", 75⟩, ⟨"B", 25⟩] 20 120
          = naiveItemized [⟨"A", 75⟩, ⟨"B", 25⟩] 20 ∧
        (subtotal [⟨"A", 75⟩, ⟨"B", 25⟩] ≠ 0 →
          sharesSum (itemized [⟨"A", 75⟩, ⟨"B", 25⟩] 20 120) = some 20)) :=
  ⟨by norm_num [subtotal],
    auto_total_refines_naive [⟨"A", 75⟩, ⟨"B", 25⟩] 20 120
      (by norm_num [subtotal])⟩

end Splittr
